import Mathlib

/-!
Shallow embedding of the CS2 skin search engine
(`src/search_utils_simplified.py`, class `SimpleSkinSearchEngine`).

Strings are modelled as Lean `String` (lists of unicode characters), which
matches Python `str` on the ASCII + "™" alphabet the engine uses.  Python
floats are modelled as rationals `ℚ`; the engine only parses decimal
literals and multiplies by 0.9 / 1.1, where the rational value is the
intended one.  A JSON price field is `PriceField`: absent, present but
unparseable (`float(...)` raises), or a parsed value.  Python dicts keyed
by item name are modelled as association lists in insertion order, and the
fuzzywuzzy library calls (`process.extract`, `fuzz.partial_ratio`) are
oracle parameters, since that library is outside the repository.
-/

namespace CS2

/-- Python whitespace class for `str.strip` / regex `\s`:
space, tab, newline, carriage return, vertical tab, form feed. -/
def isPyWs (c : Char) : Bool :=
  c = ' ' || c = '\t' || c = '\n' || c = '\r' || c.toNat = 11 || c.toNat = 12

/-- Python `str.lower` (ASCII case mapping; "™" is unchanged, as in Python). -/
def lowerS (s : String) : String := String.mk (s.data.map Char.toLower)

/-- Python `str.upper`. -/
def upperS (s : String) : String := String.mk (s.data.map Char.toUpper)

/-- Python `str.strip()`: drop leading and trailing whitespace. -/
def stripS (s : String) : String :=
  String.mk (((s.data.dropWhile isPyWs).reverse.dropWhile isPyWs).reverse)

/-- Python substring test `pat in hay`. -/
def containsL (hay pat : List Char) : Bool :=
  hay.tails.any (fun t => pat.isPrefixOf t)

/-- Python substring test `pat in hay` on `String`. -/
def containsS (hay pat : String) : Bool := containsL hay.data pat.data

/-- Python `hay.startswith(pat)`. -/
def startsWithS (hay pat : String) : Bool := pat.data.isPrefixOf hay.data

/-- Python `s.replace(pat, rep)` worker: structural recursion on a fuel
that bounds the number of consumed characters, so the kernel can evaluate
it (every step consumes at least one character when `pat` is non-empty,
and the engine never replaces an empty pattern). -/
def replaceAux (pat rep : List Char) : ℕ → List Char → List Char
  | 0, l => l
  | _, [] => []
  | fuel + 1, c :: rest =>
    if pat.isPrefixOf (c :: rest) then
      rep ++ replaceAux pat rep fuel (rest.drop (pat.length - 1))
    else
      c :: replaceAux pat rep fuel rest

/-- Python `s.replace(pat, rep)`: replace every non-overlapping occurrence,
scanning left to right. -/
def replaceAllL (pat rep l : List Char) : List Char :=
  replaceAux pat rep l.length l

/-- Python `s.replace(pat, rep)` on `String`. -/
def replaceS (s pat rep : String) : String :=
  String.mk (replaceAllL pat.data rep.data s.data)

/-- Python `s.split(sep)` for a one-character separator (keeps empty parts). -/
def splitOnCharS (c : Char) (s : String) : List String :=
  (List.splitOn c s.data).map String.mk

/-- Python `s.split()` (split on whitespace runs, no empty parts). -/
def splitWsS (s : String) : List String :=
  ((List.splitOnP isPyWs s.data).filter (fun w => w ≠ [])).map String.mk

/-- Python `" ".join(parts)`. -/
def joinSpace (parts : List String) : String :=
  String.mk (List.intercalate [' '] (parts.map String.data))

/-- Stable insertion of `x` into a sorted list: `x` goes before the first
element `y` with `le x y`.  With a total preorder this reproduces the
(unique) output of Python's stable `list.sort`. -/
def insertSorted (le : α → α → Bool) (x : α) : List α → List α
  | [] => [x]
  | y :: ys => if le x y then x :: y :: ys else y :: insertSorted le x ys

/-- Stable sort (models Python `list.sort` with a key function turned into
the boolean relation `le a b = (key a <= key b)`). -/
def sortByLe (le : α → α → Bool) : List α → List α
  | [] => []
  | x :: xs => insertSorted le x (sortByLe le xs)

/-- Value of a digit run, e.g. `"047"` ↦ `47`. -/
def digitsToNat (l : List Char) : ℕ :=
  l.foldl (fun n c => 10 * n + (c.toNat - 48)) 0

/-- Python `float(s)` on a string matched by `\d+\.?\d*` (always succeeds). -/
def capToRat (cap : List Char) : ℚ :=
  match List.splitOn '.' cap with
  | [i] => (digitsToNat i : ℚ)
  | [i, f] => (digitsToNat i : ℚ) + (digitsToNat f : ℚ) / ((10 : ℚ) ^ f.length)
  | _ => 0

/-! ### A small backtracking regex engine

Just enough of Python `re` for the price patterns of `detect_price_query`:
literals, `\s*`, `\$?`, `(?:a|b)` alternation, `(?:of)?`, and the single
capturing group `(\d+\.?\d*)`.  A matcher maps a state (remaining input,
captures collected so far, most recent first) to the list of successor
states in Python's backtracking order (greedy, alternatives left to
right); `re.search` is the leftmost position whose state list is
non-empty, taking that list's first element. -/

/-- Matcher state: remaining input and captures (most recent first). -/
abbrev RxStep := List Char × List (List Char)

/-- A matcher in Python backtracking order. -/
abbrev Rx := RxStep → List RxStep

/-- Literal string. -/
def rxLit (pat : String) : Rx := fun st =>
  if pat.data.isPrefixOf st.1 then [(st.1.drop pat.data.length, st.2)] else []

/-- `\s*` (greedy, longest first). -/
def rxWs : Rx := fun st =>
  let n := (st.1.takeWhile isPyWs).length
  (List.range (n + 1)).map (fun j => (st.1.drop (n - j), st.2))

/-- `p?` (greedy: with `p` first). -/
def rxOpt (p : Rx) : Rx := fun st => p st ++ [st]

/-- `(?:a|b|...)` (alternatives in written order). -/
def rxAlt (ps : List Rx) : Rx := fun st => ps.flatMap (fun p => p st)

/-- `\$?`. -/
def rxDollar : Rx := rxOpt (rxLit "$")

/-- The capturing group `(\d+\.?\d*)` in Python backtracking order:
`\d+` longest first, then `\.?` with the dot first, then `\d*` longest
first. -/
def rxNum : Rx := fun st =>
  let cs := st.1
  let n := (cs.takeWhile Char.isDigit).length
  if n = 0 then [] else
  (List.range n).flatMap (fun j =>
    let k := n - j
    let rest1 := cs.drop k
    let withDot : List (List Char × List Char) :=
      match rest1 with
      | '.' :: rest2 =>
        let m := (rest2.takeWhile Char.isDigit).length
        (List.range (m + 1)).map (fun i =>
          let fl := m - i
          (cs.take k ++ '.' :: rest2.take fl, rest2.drop fl))
      | _ => []
    let noDot : List (List Char × List Char) :=
      (List.range (n - k + 1)).map (fun i =>
        let j2 := (n - k) - i
        (cs.take (k + j2), cs.drop (k + j2)))
    (withDot ++ noDot).map (fun pr => (pr.2, pr.1 :: st.2)))

/-- Sequence a list of matchers. -/
def rxSeqs (ps : List Rx) : Rx := fun st =>
  ps.foldl (fun acc p => acc.flatMap p) [st]

/-- Try a matcher at the start of the input; first match's captures
(in group order). -/
def rxRun (p : Rx) (cs : List Char) : Option (List (List Char)) :=
  match p (cs, []) with
  | [] => none
  | st :: _ => some st.2.reverse

/-- Python `re.search`: leftmost position with a match, then that
position's first match in backtracking order. -/
def rxSearch (p : Rx) : List Char → Option (List (List Char))
  | [] => rxRun p []
  | c :: rest =>
    match rxRun p (c :: rest) with
    | some caps => some caps
    | none => rxSearch p rest

/-! ### Data model -/

/-- A price field of a catalog item as loaded from JSON: missing from the
item's record, present but unparseable (`float(...)` raises `ValueError` /
`TypeError`), or a parsed number. -/
inductive PriceField where
  | absent : PriceField
  | invalid : PriceField
  | val (q : ℚ) : PriceField
deriving DecidableEq, Repr

/-- `float(item_data.get(field, '999999'))` as the engine performs it:
an absent field defaults to the string `'999999'` (which parses to the
sentinel price 999999), an unparseable field raises (`none`). -/
def parsePriceField : PriceField → Option ℚ
  | .absent => some 999999
  | .invalid => none
  | .val q => some q

/-- The JSON record of one catalog item (the fields the engine reads). -/
structure ItemData where
  minPrice : PriceField := .absent
  maxPrice : PriceField := .absent
  suggestedPrice : PriceField := .absent
  quantity : ℕ := 0
deriving DecidableEq, Repr

/-- A result dictionary as built by the search methods:
`{'item_name', 'min_price', 'max_price', 'suggested_price', 'quantity'}`,
plus `'match_score'` when that key is set. -/
structure ResultRec where
  itemName : String
  minPrice : ℚ
  maxPrice : ℚ
  suggestedPrice : ℚ
  quantity : ℕ
  matchScore : Option ℕ := none
deriving DecidableEq, Repr

/-- `self.items` as an association list in insertion order (a Python dict
preserves insertion order; keys are unique after loading). -/
abbrev Catalog := List (String × ItemData)

/-- `self.item_names` (`list(self.items.keys())`). -/
def itemNames (cat : Catalog) : List String := cat.map (·.1)

/-- `self.items[name]` (Python raises `KeyError` when absent; every name the
engine looks up comes from `item_names`, so `none` is unreachable there). -/
def lookupItem (cat : Catalog) (n : String) : Option ItemData :=
  (cat.find? (fun p => p.1 == n)).map (·.2)

/-- The `try: float(...)` block shared by the search methods: an item
yields a result record only when all three price fields convert
(`min_price`, `max_price`, `suggested_price`, each defaulting to
`'999999'` when absent); otherwise the item is skipped. -/
def buildRec (cat : Catalog) (score : Option ℕ) (n : String) : Option ResultRec :=
  match lookupItem cat n with
  | none => none
  | some d =>
    match parsePriceField d.minPrice, parsePriceField d.maxPrice,
          parsePriceField d.suggestedPrice with
    | some mn, some mx, some sg => some ⟨n, mn, mx, sg, d.quantity, score⟩
    | _, _, _ => none

/-! ### `detect_price_query` (lines 749-844) -/

/-- The price keywords of `detect_price_query`. -/
def priceKeywords : List String :=
  ["price", "cost", "value", "worth", "expensive", "cheap", "cheapest",
   "affordable", "budget", "money", "dollar", "usd", "$", "most expensive",
   "highest price", "priciest"]

/-- `under_patterns` (upper-bound regex family, in source order). -/
def underPatterns : List Rx :=
  [rxSeqs [rxLit "under", rxWs, rxDollar, rxNum],
   rxSeqs [rxLit "less than", rxWs, rxDollar, rxNum],
   rxSeqs [rxLit "cheaper than", rxWs, rxDollar, rxNum],
   rxSeqs [rxLit "below", rxWs, rxDollar, rxNum],
   rxSeqs [rxAlt [rxLit "max", rxLit "maximum"], rxWs, rxOpt (rxLit "of"),
           rxWs, rxDollar, rxNum],
   rxSeqs [rxAlt [rxLit "at most", rxLit "no more than"], rxWs, rxDollar, rxNum],
   rxSeqs [rxAlt [rxLit "up to", rxLit "not exceeding"], rxWs, rxDollar, rxNum]]

/-- `over_patterns` (lower-bound regex family, in source order). -/
def overPatterns : List Rx :=
  [rxSeqs [rxLit "over", rxWs, rxDollar, rxNum],
   rxSeqs [rxLit "more than", rxWs, rxDollar, rxNum],
   rxSeqs [rxLit "above", rxWs, rxDollar, rxNum],
   rxSeqs [rxAlt [rxLit "min", rxLit "minimum"], rxWs, rxOpt (rxLit "of"),
           rxWs, rxDollar, rxNum],
   rxSeqs [rxAlt [rxLit "at least", rxLit "no less than"], rxWs, rxDollar, rxNum],
   rxSeqs [rxLit "starting ", rxAlt [rxLit "at", rxLit "from"], rxWs, rxDollar, rxNum]]

/-- `between_pattern` (`between $A and $B, with and/to/hyphen separators`). -/
def betweenPattern : Rx :=
  rxSeqs [rxLit "between", rxWs, rxDollar, rxNum, rxWs,
          rxAlt [rxLit "and", rxLit "to", rxLit "-"], rxWs, rxDollar, rxNum]

/-- The bare-amount pattern `\$?(\d+\.?\d*)`. -/
def barePattern : Rx := rxSeqs [rxDollar, rxNum]

/-- The first pattern of a family whose `re.search` succeeds, with its
group-1 value converted by `float` (the conversion never fails on a
`\d+\.?\d*` capture, so the `except` branch is dead). -/
def firstPatternValue (pats : List Rx) (cs : List Char) : Option ℚ :=
  pats.findSome? (fun p => (rxSearch p cs).bind (fun caps => caps.head?.map capToRat))

/-- `re.search(between_pattern, q)` with both groups converted. -/
def betweenSearch (cs : List Char) : Option (ℚ × ℚ) :=
  (rxSearch betweenPattern cs).bind (fun caps =>
    match caps with
    | [a, b] => some (capToRat a, capToRat b)
    | _ => none)

/-- Python truthiness of an `Optional[float]`: `None` and `0.0` are falsy. -/
def truthyQ : Option ℚ → Bool
  | none => false
  | some v => v ≠ 0

/-- The window construction of the bare-amount stage (lines 833-842):
requires the keyword `"price"` or a `"$"` in the query. -/
def bareWindow (caps : List (List Char)) (isPQ : Bool) (maxP minP : Option ℚ)
    (ql : String) : Bool × Option ℚ × Option ℚ :=
  if containsS ql "price" || containsS ql "$" then
    match caps.head? with
    | some cap =>
      (true, some (capToRat cap * (11 / 10)), some (capToRat cap * (9 / 10)))
    | none => (isPQ, maxP, minP)
  else (isPQ, maxP, minP)

/-- The bare-amount stage of `detect_price_query` (lines 831-842): when
no truthy bound was found so far (`not (max_price or min_price)`), a digit
run together with the keyword `"price"` or `"$"` sets a ±10% window
around the first digit run. -/
def detectBareStage (isPQ : Bool) (maxP minP : Option ℚ) (ql : String) :
    Bool × Option ℚ × Option ℚ :=
  if !(truthyQ maxP || truthyQ minP) then
    match rxSearch barePattern ql.data with
    | some caps => bareWindow caps isPQ maxP minP ql
    | none => (isPQ, maxP, minP)
  else (isPQ, maxP, minP)

/-- The ordered dispatch of `detect_price_query` (lines 799-829): the
"between" pattern is checked first; only when it fails are the
under-patterns (upper bound) and over-patterns (lower bound) scanned. -/
def detectBetweenStage : Option (ℚ × ℚ) → String → Bool × Option ℚ × Option ℚ
  | some ab, ql => detectBareStage true (some ab.2) (some ab.1) ql
  | none, ql =>
    detectBareStage
      ((priceKeywords.any (fun k => containsS ql k)) ||
        (firstPatternValue underPatterns ql.data).isSome ||
        (firstPatternValue overPatterns ql.data).isSome)
      (firstPatternValue underPatterns ql.data)
      (firstPatternValue overPatterns ql.data) ql

/-- `detect_price_query(query)` (lines 749-844): returns
`(is_price_query, max_price, min_price)`. -/
def detectPriceQuery (query : String) : Bool × Option ℚ × Option ℚ :=
  detectBetweenStage (betweenSearch (lowerS query).data) (lowerS query)

/-! ### Normalization: `_correct_spelling` (lines 1412-1459) -/

/-- The StatTrak synonyms rewritten to `"stattrak"` by the normalizers
(`_correct_spelling` line 1424, `fuzzy_search` line 567). -/
def stSynonyms : List String := ["stat trak", "stat-trak", "stattrack", "st"]

/-- The full StatTrak detection term list used by the substring checks
(`_match_by_parsed_components` line 186, `fuzzy_search` line 563,
`search` line 975, `format_search_results` line 1245, ...). -/
def stTerms : List String :=
  ["stattrak™", "stattrak", "stat trak", "stat-trak", "stattrack", "st"]

/-- `is_stattrak`: any StatTrak term occurs as a substring. -/
def isStatTerms (q : String) : Bool := stTerms.any (fun t => containsS q t)

/-- `for st_term in [...]: if st_term in q: q = q.replace(st_term, "stattrak")`. -/
def applyStNormalize (q : String) : String :=
  stSynonyms.foldl (fun acc t =>
    if containsS acc t then replaceS acc t "stattrak" else acc) q

/-- The `skin_corrections` table shared by `fuzzy_search` (lines 572-594)
and `_correct_spelling` (lines 1429-1452); `_correct_spelling` appends the
(identity) entry `"karambit" -> "karambit"`. -/
def skinCorrectionsBase : List (String × String) :=
  [("autorinic", "autotronic"), ("autronic", "autotronic"),
   ("autoronic", "autotronic"), ("ultrvoilet", "ultraviolet"),
   ("ultraviolt", "ultraviolet"), ("doplar", "doppler"), ("doplr", "doppler"),
   ("marbl", "marble"), ("marbel", "marble"), ("marblefade", "marble fade"),
   ("tigertoot", "tiger tooth"), ("tiger toot", "tiger tooth"),
   ("casehardened", "case hardened"), ("case-hardened", "case hardened"),
   ("crim web", "crimson web"), ("crimsonweb", "crimson web"),
   ("blu steel", "blue steel"), ("damascus", "damascus steel"),
   ("rust", "rust coat"), ("gamma dopler", "gamma doppler"),
   ("gamma-doppler", "gamma doppler")]

/-- `for misspelling, correction in table: if misspelling in q: q = q.replace(...)`. -/
def applyCorrections (tbl : List (String × String)) (q : String) : String :=
  tbl.foldl (fun acc mc =>
    if containsS acc mc.1 then replaceS acc mc.1 mc.2 else acc) q

/-- `_correct_spelling(query)` (lines 1412-1459): lower-case and strip,
rewrite StatTrak synonyms to `"stattrak"`, then apply the spelling table. -/
def correctSpelling (query : String) : String :=
  applyCorrections (skinCorrectionsBase ++ [("karambit", "karambit")])
    (applyStNormalize (stripS (lowerS query)))

/-! ### Weapon and StatTrak indexes (lines 61-111) -/

/-- The `weapon_types` list of `_build_weapon_index` (line 63), in order. -/
def weaponTypes : List String :=
  ["AK-47", "M4A4", "M4A1-S", "AWP", "Desert Eagle", "USP-S", "Glock-18",
   "P250", "Five-SeveN", "CZ75-Auto", "Tec-9", "Knife", "Karambit", "Bayonet",
   "Butterfly", "Gloves", "P90", "MAC-10", "MP9", "MP7", "UMP-45", "PP-Bizon",
   "Galil AR", "FAMAS", "SG 553", "AUG", "SSG 08", "G3SG1", "SCAR-20"]

/-- The weapon an item is classified under by `_build_weapon_index`
(lines 74-90): the first entry of `weapon_types` whose lower-cased name is
a substring of the lower-cased item name.  The StatTrak branch and the
regular branch of the source run the same first-match loop. -/
def firstWeaponOf (itemName : String) : Option String :=
  let il := lowerS itemName
  if containsS il "stattrak™" || containsS il "stattrak" then
    weaponTypes.find? (fun w => containsS il (lowerS w))
  else
    weaponTypes.find? (fun w => containsS il (lowerS w))

/-- `self.weapon_type_index[wl]`: the items classified under the weapon
whose lower-cased name is `wl`, in catalog order. -/
def weaponBucket (names : List String) (wl : String) : List String :=
  names.filter (fun n => ((firstWeaponOf n).map lowerS) == some wl)

/-- `self.weapon_type_index.get(wl, [])`: buckets exist exactly for the
lower-cased entries of `weapon_types`. -/
def weaponTypeIndexGet (names : List String) (wl : String) : List String :=
  if (weaponTypes.map lowerS).contains wl then weaponBucket names wl else []

/-- `self.stattrak_items` (`_build_stattrak_index`, lines 92-111). -/
def stattrakItems (names : List String) : List String :=
  names.filter (fun n =>
    containsS (lowerS n) "stattrak™" || containsS (lowerS n) "stattrak")

/-! ### `exact_match` and `_match_by_parsed_components` (lines 113-268) -/

/-- The wear-condition alias table (used identically at lines 219, 291,
603, 1248). -/
def wearConditions : List (String × List String) :=
  [("factory new", ["factory new", "fn"]),
   ("minimal wear", ["minimal wear", "mw"]),
   ("field-tested", ["field-tested", "field tested", "ft"]),
   ("well-worn", ["well-worn", "well worn", "ww"]),
   ("battle-scarred", ["battle-scarred", "battle scarred", "bs"])]

/-- The `weapon_names` alias table of `_match_by_parsed_components`
(lines 193-205). -/
def weaponNamesParsed : List (String × List String) :=
  [("ak-47", ["ak47", "ak-47", "ak"]),
   ("m4a4", ["m4a4"]),
   ("m4a1-s", ["m4a1s", "m4a1-s", "m4a1"]),
   ("awp", ["awp"]),
   ("desert eagle", ["deagle", "desert eagle", "eagle"]),
   ("glock-18", ["glock", "glock-18", "glock18"]),
   ("usp-s", ["usp-s", "usps", "usp"]),
   ("p250", ["p250"]),
   ("knife", ["knife"]),
   ("karambit", ["karambit"])]

/-- First `(key, alias)` of an alias table whose alias is a substring of
`q` (the nested first-match loops with `break`). -/
def firstAliasMatch (tbl : List (String × List String)) (q : String) :
    Option (String × String) :=
  tbl.findSome? (fun ka =>
    (ka.2.find? (fun a => containsS q a)).map (fun a => (ka.1, a)))

/-- The final filter of `_match_by_parsed_components` (lines 245-268):
keep the items matching every extracted component, and only StatTrak
items when the StatTrak flag was set. -/
def parsedFilter (isST : Bool) (weaponType : Option String) (skinName : String)
    (wearCondition : Option String) (names : List String) : List String :=
  names.filter (fun n =>
    let il := lowerS n
    (!(isST && !(containsS il "stattrak™" || containsS il "stattrak"))) &&
    (match weaponType with
     | some w => containsS il w
     | none => true) &&
    (skinName = "" || containsS il skinName) &&
    (match wearCondition with
     | some u => containsS il u
     | none => true))

/-- Stage 3 of `_match_by_parsed_components` (lines 237-268): what remains
of the query is the skin name; give up when no component was extracted. -/
def mbpcSkinStage (cat : Catalog) (isST : Bool) (weaponType : Option String)
    (wearCondition : Option String) (q3 : String) : List String :=
  let skinName := stripS q3
  if weaponType.isNone && skinName = "" && wearCondition.isNone then []
  else parsedFilter isST weaponType skinName wearCondition (itemNames cat)

/-- Stage 2 of `_match_by_parsed_components` (lines 218-235): strip the
first matching wear-condition alias. -/
def mbpcWearStage (cat : Catalog) (isST : Bool) (weaponType : Option String)
    (q2 : String) : List String :=
  match firstAliasMatch wearConditions q2 with
  | some ka => mbpcSkinStage cat isST weaponType (some ka.1) (stripS (replaceS q2 ka.2 ""))
  | none => mbpcSkinStage cat isST weaponType none q2

/-- Stage 1 of `_match_by_parsed_components` (lines 207-216): strip the
first matching weapon alias. -/
def mbpcWeaponStage (cat : Catalog) (isST : Bool) (q1 : String) : List String :=
  match firstAliasMatch weaponNamesParsed q1 with
  | some ka => mbpcWearStage cat isST (some ka.1) (stripS (replaceS q1 ka.2 ""))
  | none => mbpcWearStage cat isST none q1

/-- `_match_by_parsed_components(query_lower)` (lines 169-268): detect and
strip the StatTrak terms, then the weapon alias, then the wear alias;
what remains is the skin fragment; finally filter the catalog on all
extracted components. -/
def matchByParsedComponents (cat : Catalog) (queryLower : String) : List String :=
  if isStatTerms queryLower then
    mbpcWeaponStage cat true
      (stTerms.foldl (fun acc t => stripS (replaceS acc t "")) queryLower)
  else mbpcWeaponStage cat false queryLower

/-- Stage 1 of `exact_match` (lines 129-136): the names the query equals
case-insensitively, directly or after rewriting `stattrak` to
`stattrak™` in the query. -/
def exactEqualMatches (cat : Catalog) (query : String) : List String :=
  let ql := stripS (lowerS query)
  let isST := containsS ql "stattrak™" || containsS ql "stattrak" ||
              containsS ql "stat trak" || containsS ql "stat-trak"
  (itemNames cat).filter (fun n =>
    let nl := lowerS n
    ql == nl ||
    (isST && containsS ql "stattrak" && containsS nl "stattrak™" &&
     replaceS ql "stattrak" "stattrak™" == nl))

/-- `exact_match(query)` (lines 113-167): full case-insensitive equality
(with the `stattrak` → `stattrak™` rewrite), then component-parsed
matching, then prefix matching, then substring matching; each stage
returns as soon as it is non-empty. -/
def exactMatch (cat : Catalog) (query : String) : List String :=
  let ql := stripS (lowerS query)
  let isST := containsS ql "stattrak™" || containsS ql "stattrak" ||
              containsS ql "stat trak" || containsS ql "stat-trak"
  let names := itemNames cat
  let equalMatches := exactEqualMatches cat query
  if equalMatches ≠ [] then equalMatches
  else
    let parsed := matchByParsedComponents cat ql
    if parsed ≠ [] then parsed
    else
      let startMatches := names.filter (fun n =>
        let nl := lowerS n
        startsWithS nl ql ||
        (isST && containsS ql "stattrak" && containsS nl "stattrak™" &&
         startsWithS nl (replaceS ql "stattrak" "stattrak™")))
      if startMatches ≠ [] then startMatches
      else
        names.filter (fun n =>
          let nl := lowerS n
          containsS nl ql ||
          (isST && containsS ql "stattrak" && containsS nl "stattrak™" &&
           containsS nl (replaceS ql "stattrak" "stattrak™")))

/-! ### Price searches (lines 370-543) -/

/-- Ascending order on `min_price` (`sort(key=lambda x: x['min_price'])`). -/
def leAscPrice (a b : ResultRec) : Bool := decide (a.minPrice ≤ b.minPrice)

/-- Descending order on `min_price` (`key=lambda x: -x['min_price']` or
`reverse=True`). -/
def leDescPrice (a b : ResultRec) : Bool := decide (b.minPrice ≤ a.minPrice)

/-- `search_cheapest_by_weapon(weapon_type, limit)` (lines 370-413). -/
def searchCheapestByWeapon (cat : Catalog) (weaponType : String)
    (limit : Option ℕ) : List ResultRec :=
  let wl := lowerS weaponType
  let weaponItems := weaponTypeIndexGet (itemNames cat) wl
  if weaponItems = [] then []
  else
    let pd := sortByLe leAscPrice (weaponItems.filterMap (buildRec cat none))
    match limit with
    | none => pd
    | some l => pd.take l

/-- `search_most_expensive_by_weapon(weapon_type, limit)` (lines 415-458). -/
def searchMostExpensiveByWeapon (cat : Catalog) (weaponType : String)
    (limit : Option ℕ) : List ResultRec :=
  let wl := lowerS weaponType
  let weaponItems := weaponTypeIndexGet (itemNames cat) wl
  if weaponItems = [] then []
  else
    let pd := sortByLe leDescPrice (weaponItems.filterMap (buildRec cat none))
    match limit with
    | none => pd
    | some l => pd.take l

/-- The container keywords of the category-exclusion rule of
`search_by_price_range` (lines 490-497; matched case-sensitively). -/
def containerKeywords : List String :=
  ["Sticker", "Patch", "Graffiti", "Case", "Container", "Capsule",
   "Music Kit", "Charm"]

/-- The weapon keywords that rescue a container-looking name
(lines 498-508; matched case-sensitively). -/
def rescueWeaponKeywords : List String :=
  ["AK-47", "M4A4", "M4A1-S", "AWP", "Desert Eagle", "USP-S", "Glock-18",
   "P250", "Five-SeveN", "CZ75-Auto", "Tec-9", "Knife", "Karambit", "Bayonet",
   "Butterfly", "Gloves", "P90", "MAC-10", "MP9", "MP7", "UMP-45", "PP-Bizon",
   "Galil AR", "FAMAS", "SG 553", "AUG", "SSG 08", "G3SG1", "SCAR-20",
   "Dual Berettas", "R8 Revolver", "P2000", "MP5-SD", "MAG-7", "Nova",
   "Sawed-Off", "XM1014", "M249", "Negev", "Bowie", "Classic Knife",
   "Falchion", "Flip", "Gut", "Huntsman", "Kukri", "M9 Bayonet", "Navaja",
   "Nomad", "Paracord", "Shadow Daggers", "Skeleton", "Stiletto", "Survival",
   "Talon", "Ursus", "Zeus x27"]

/-- The per-item body of `search_by_price_range`'s loop (lines 485-525):
skip container-category names, skip unparseable prices, keep an item whose
parsed `min_price` lies within the inclusive bounds (and whose other two
price fields also convert). -/
def priceRangeBuild (cat : Catalog) (maxPrice : Option ℚ) (minPrice : ℚ)
    (n : String) : Option ResultRec :=
  match lookupItem cat n with
  | none => none
  | some d =>
    if (containerKeywords.any (fun k => containsS n k)) &&
       !(rescueWeaponKeywords.any (fun k => containsS n k)) then none
    else
      match parsePriceField d.minPrice with
      | none => none
      | some p =>
        if (match maxPrice with | none => true | some m => decide (p ≤ m)) &&
           decide (minPrice ≤ p) then
          match parsePriceField d.maxPrice, parsePriceField d.suggestedPrice with
          | some mx, some sg => some ⟨n, p, mx, sg, d.quantity, none⟩
          | _, _ => none
        else none

/-- `search_by_price_range(weapon_type, max_price, min_price)`
(lines 460-543): price filter with inclusive bounds, category exclusion,
intent-dependent sort, and a hard cap of 15 results.
`weapon_type=None` (or the falsy empty string) searches the whole catalog. -/
def searchByPriceRange (cat : Catalog) (weaponType : Option String)
    (maxPrice : Option ℚ) (minPrice : ℚ) : List ResultRec :=
  let names :=
    match weaponType with
    | some w => if w = "" then itemNames cat
                else weaponTypeIndexGet (itemNames cat) (lowerS w)
    | none => itemNames cat
  if names = [] then []
  else
    let pd := names.filterMap (priceRangeBuild cat maxPrice minPrice)
    let sorted :=
      if maxPrice.isSome && decide (0 < minPrice) then sortByLe leAscPrice pd
      else if maxPrice.isSome then sortByLe leDescPrice pd
      else if decide (0 < minPrice) then sortByLe leAscPrice pd
      else sortByLe leAscPrice pd
    sorted.take 15

/-! ### `search_by_weapon_and_skin` and `fuzzy_search` (lines 270-368, 545-747)

`process.extract(query, choices, limit)` of the external fuzzywuzzy
library is an oracle parameter `px`. -/

/-- The type of the `process.extract` oracle. -/
abbrev ExtractOracle := String → List String → ℕ → List (String × ℕ)

/-- `search_by_weapon_and_skin(weapon_type, skin_name)` (lines 270-368). -/
def searchByWeaponAndSkin (px : ExtractOracle) (cat : Catalog)
    (weaponType skinName : String) : List String :=
  let wl := lowerS weaponType
  let sl0 := stripS (lowerS skinName)
  let weaponItems := weaponTypeIndexGet (itemNames cat) wl
  let isST := isStatTerms sl0
  let wd := wearConditions.find? (fun wa => wa.2.any (fun a => containsS sl0 a))
  let detectedWear := wd.map (·.1)
  let sl1 :=
    match wd with
    | some wa => wa.2.foldl (fun acc a => stripS (replaceS acc a "")) sl0
    | none => sl0
  let cleanSkin := stTerms.foldl (fun acc t => stripS (replaceS acc t "")) sl1
  let matchesL := weaponItems.filter (fun n =>
    let il := lowerS n
    let itemIsSt := containsS il "stattrak™" || containsS il "stattrak"
    if isST && !itemIsSt then false
    else
      let cleanItem := replaceS (replaceS il "stattrak™ " "") "stattrak " ""
      containsS cleanItem cleanSkin &&
      (match detectedWear with
       | none => true
       | some w => containsS il (lowerS w)))
  if matchesL = [] && cleanSkin ≠ "" then
    let skinNames := weaponItems.filterMap (fun n =>
      let il := lowerS n
      if isST && !(containsS il "stattrak™" || containsS il "stattrak") then none
      else
        let parts := splitOnCharS '|' il
        if 2 ≤ parts.length then
          let skinPart := stripS (String.mk
            (((parts.get? 1).getD "").data.takeWhile (fun c => c ≠ '(')))
          if (match detectedWear with
              | none => true
              | some w => containsS il (lowerS w)) then some (n, skinPart)
          else none
        else none)
    if skinNames ≠ [] then
      let skinParts := skinNames.map (·.2)
      let mws := px cleanSkin skinParts 10
      let goodMatches := (mws.filter (fun ns => 75 ≤ ns.2)).map (fun ns =>
        ((skinNames.getD (skinParts.indexOf ns.1) ("", "")).1, ns.2))
      (sortByLe (fun a b : String × ℕ => decide (b.2 ≤ a.2)) goodMatches).map (·.1)
    else matchesL
  else matchesL

/-- The `skin_patterns` list (lines 622-627, also 1263-1268). -/
def skinPatterns : List String :=
  ["autotronic", "lore", "doppler", "gamma doppler", "marble fade",
   "tiger tooth", "fade", "crimson web", "slaughter", "case hardened",
   "ultraviolet", "night", "blue steel", "damascus steel", "rust coat",
   "scorched", "forest ddpat", "urban masked", "stained", "safari mesh",
   "boreal forest"]

/-- The `weapon_prefixes` dict of `fuzzy_search` (lines 636-650), in
insertion order; looked up by exact key equality of the query's first
token. -/
def weaponPrefixes : List (String × String) :=
  [("ak", "ak-47"), ("ak47", "ak-47"), ("ak-47", "ak-47"),
   ("m4a4", "m4a4"), ("m4a1s", "m4a1-s"), ("m4a1-s", "m4a1-s"), ("m4", "m4a4"),
   ("awp", "awp"), ("deagle", "desert eagle"), ("desert eagle", "desert eagle"),
   ("glock", "glock-18"), ("glock18", "glock-18"), ("glock-18", "glock-18"),
   ("usp", "usp-s"), ("usps", "usp-s"), ("usp-s", "usp-s"),
   ("p250", "p250"), ("fiveseven", "five-seven"), ("five-seven", "five-seven"),
   ("cz", "cz75-auto"), ("cz75", "cz75-auto"), ("cz75-auto", "cz75-auto"),
   ("tec9", "tec-9"), ("tec-9", "tec-9"),
   ("karambit", "karambit"), ("bayonet", "bayonet"),
   ("butterfly", "butterfly knife"),
   ("m9", "m9 bayonet"), ("m9 bayonet", "m9 bayonet"), ("flip", "flip knife"),
   ("gut", "gut knife"), ("falchion", "falchion knife"),
   ("shadow", "shadow daggers"), ("huntsman", "huntsman knife"),
   ("bowie", "bowie knife"), ("daggers", "shadow daggers"),
   ("knife", "knife")]

/-- The targeted weapon+skin+wear scan shared by the two special branches
of `fuzzy_search` (lines 669-679 and 711-721): all items containing the
weapon fragment, the detected skin pattern and the detected wear, subject
to the StatTrak restriction. -/
def fuzzyTargetedScan (cat : Catalog) (weaponFrag ds dw : String)
    (isST : Bool) : List String :=
  (itemNames cat).filter (fun n =>
    let il := lowerS n
    containsS il weaponFrag && containsS il ds && containsS il dw &&
    (!isST || containsS il "stattrak"))

/-- The tail of the two weapon-result branches of `fuzzy_search`
(lines 683-691 and 726-734): prefer StatTrak entries when the query asked
for StatTrak, else return all, each with score 100. -/
def fuzzyWeaponResults (isST : Bool) (wr : List String) :
    Option (List (String × ℕ)) :=
  if wr ≠ [] then
    if isST then
      let str := wr.filter (fun m =>
        containsS (lowerS m) "stattrak™" || containsS (lowerS m) "stattrak")
      if str ≠ [] then some (str.map (fun n => (n, 100)))
      else some (wr.map (fun n => (n, 100)))
    else some (wr.map (fun n => (n, 100)))
  else none

/-- `fuzzy_search(query, top_k)` (lines 545-747). -/
def fuzzySearch (px : ExtractOracle) (cat : Catalog) (query : String)
    (topK : ℕ) : List (String × ℕ) :=
  if itemNames cat = [] then []
  else
    let q := stripS (lowerS query)
    let isST := isStatTerms q
    let nq := applyCorrections skinCorrectionsBase (applyStNormalize q)
    let detectedWear :=
      (wearConditions.find? (fun wa => wa.2.any (fun a => containsS nq a))).map (·.1)
    let detectedSkin := skinPatterns.find? (fun p => containsS nq p)
    let parts := splitWsS nq
    let weaponType : Option String :=
      match parts with
      | [] => none
      | p0 :: _ => (weaponPrefixes.find? (fun kv => kv.1 == p0)).map (·.2)
    let branch1 : Option (List (String × ℕ)) :=
      match weaponType with
      | none => none
      | some w =>
        let skinName := joinSpace parts.tail
        if skinName ≠ "" then
          let targeted : Option (List (String × ℕ)) :=
            match detectedSkin, detectedWear with
            | some ds, some dw =>
              let em := fuzzyTargetedScan cat w ds dw isST
              if em ≠ [] then some (em.map (fun n => (n, 100))) else none
            | _, _ => none
          match targeted with
          | some r => some r
          | none => fuzzyWeaponResults isST (searchByWeaponAndSkin px cat w skinName)
        else none
    match branch1 with
    | some r => r
    | none =>
      let branch2 : Option (List (String × ℕ)) :=
        if containsS nq "karambit" && weaponType.isNone then
          let skin0 := stripS (replaceS nq "karambit" "")
          let skin1 :=
            if isST then
              stTerms.foldl (fun acc t => stripS (replaceS acc t "")) skin0
            else skin0
          let targeted : Option (List (String × ℕ)) :=
            match detectedSkin, detectedWear with
            | some ds, some dw =>
              let em := fuzzyTargetedScan cat "karambit" ds dw isST
              if em ≠ [] then some (em.map (fun n => (n, 100))) else none
            | _, _ => none
          match targeted with
          | some r => some r
          | none =>
            if skin1 ≠ "" then
              fuzzyWeaponResults isST (searchByWeaponAndSkin px cat "karambit" skin1)
            else none
        else none
      match branch2 with
      | some r => r
      | none =>
        let branch3 : Option (List (String × ℕ)) :=
          if isST then
            let str := px nq (stattrakItems (itemNames cat)) topK
            match str with
            | s0 :: _ => if 80 < s0.2 then some str else none
            | [] => none
          else none
        match branch3 with
        | some r => r
        | none => px nq (itemNames cat) topK

/-! ### `hierarchical_search` (lines 846-917) and `search` (lines 919-1226) -/

/-- `name` is a StatTrak item name
(`"stattrak™" in name.lower() or "stattrak" in name.lower()`). -/
def isStatName (n : String) : Bool :=
  containsS (lowerS n) "stattrak™" || containsS (lowerS n) "stattrak"

/-- `isStatName` on a result record's `item_name`. -/
def isStatRec (r : ResultRec) : Bool := isStatName r.itemName

/-- Python `results[:limit] if limit else results` (`limit = 0` is falsy
and returns the whole list). -/
def takeTruthy (limit : ℕ) (l : List α) : List α :=
  if limit = 0 then l else l.take limit

/-- The zero-result fallback of `hierarchical_search` (lines 893-916):
correct the spelling, detect price intent, and when bounds exist run the
price-range search (capped at `limit`); otherwise the empty result list
stands. -/
def hsfFallback (cat : Catalog) (q : String) (limit : ℕ) : List ResultRec :=
  let q2 := correctSpelling q
  let dp := detectPriceQuery q2
  if dp.1 && (dp.2.1.isSome || dp.2.2.isSome) then
    let wt := (weaponTypes.map lowerS).find? (fun k => containsS q2 k)
    let prs := searchByPriceRange cat wt dp.2.1 (dp.2.2.getD 0)
    if prs ≠ [] then prs.take limit else ([] : List ResultRec).take limit
  else ([] : List ResultRec).take limit

/-- Lines 873-917 of `hierarchical_search`: convert the matched names to
result records (score 100); when none convert, run the fallback; else
return the first `limit` records.  (In the fallback branch the original
code finishes with `results[:limit]` on the empty `results`.) -/
def hsfBuild (cat : Catalog) (em : List String) (q : String) (limit : ℕ) :
    List ResultRec :=
  let results := em.filterMap (buildRec cat (some 100))
  if results = [] then hsfFallback cat q limit else results.take limit

/-- Step 3 of `hierarchical_search` (lines 866-871): when the previous
stages produced nothing and the query is non-empty, take the fuzzy
matches scoring above 75. -/
def hsfFuzzyStage (fz : String → ℕ → List (String × ℕ)) (cat : Catalog)
    (q : String) (limit : ℕ) (em1 : List String) : List ResultRec :=
  hsfBuild cat
    (if em1 = [] && q ≠ "" then
      ((fz q limit).filter (fun ns => 75 < ns.2)).map (·.1)
    else em1) q limit

/-- `hierarchical_search(query, limit)` (lines 846-917), parameterized by
the fuzzy stage `fz` (the engine instantiates `fz` with
`fuzzy_search`; keeping it a parameter makes "the fuzzy stage was never
consulted" expressible as independence from `fz`).  Steps 1-2: exact
match, then component-parsed match if it was empty. -/
def hierarchicalSearchF (fz : String → ℕ → List (String × ℕ)) (cat : Catalog)
    (query : String) (limit : ℕ) : List ResultRec :=
  let q := stripS (lowerS query)
  hsfFuzzyStage fz cat q limit
    (if exactMatch cat q = [] then matchByParsedComponents cat q
     else exactMatch cat q)

/-- `hierarchical_search` with the real fuzzy stage. -/
def hierarchicalSearch (px : ExtractOracle) (cat : Catalog) (query : String)
    (limit : ℕ) : List ResultRec :=
  hierarchicalSearchF (fun s k => fuzzySearch px cat s k) cat query limit

/-- The type of the `fuzz.partial_ratio` oracle. -/
abbrev RatioOracle := String → String → ℕ

/-- The `weapon_names` alias table of `search` (lines 955-966; the same as
`_match_by_parsed_components` except `"knife"` also has alias `"knives"`). -/
def weaponNamesSearch : List (String × List String) :=
  [("ak-47", ["ak47", "ak-47", "ak"]),
   ("m4a4", ["m4a4"]),
   ("m4a1-s", ["m4a1s", "m4a1-s", "m4a1"]),
   ("awp", ["awp"]),
   ("desert eagle", ["deagle", "desert eagle", "eagle"]),
   ("glock-18", ["glock", "glock-18", "glock18"]),
   ("usp-s", ["usp-s", "usps", "usp"]),
   ("p250", ["p250"]),
   ("knife", ["knife", "knives"]),
   ("karambit", ["karambit"])]

/-- The terms stripped from the query when extracting a skin name in
`search` (lines 985-986). -/
def searchCleanupTerms : List String :=
  ["price", "cost", "value", "how much", "cheapest", "expensive",
   "stattrak™", "stattrak", "stat trak", "stat-trak", "stattrack", "st"]

/-- Lexicographic string order by code point (Python `str` comparison),
used by `results.sort(key=lambda x: x['item_name'])`. -/
def lexLeL : List Char → List Char → Bool
  | [], _ => true
  | _ :: _, [] => false
  | a :: as2, b :: bs => if a = b then lexLeL as2 bs else decide (a.toNat < b.toNat)

/-- Alphabetic order on result records. -/
def leNameRec (a b : ResultRec) : Bool := lexLeL a.itemName.data b.itemName.data

/-- Descending order on `match_score`
(`key=lambda x: (-x.get('match_score', 0))`). -/
def leDescScore (a b : ResultRec) : Bool :=
  decide (b.matchScore.getD 0 ≤ a.matchScore.getD 0)

/-- The weapon branch of `search`'s cheapest case (lines 1010-1016):
the 25 cheapest items of the weapon, restricted to StatTrak when the flag
is set. -/
def cheapestCase (cat : Catalog) (w : String) (isST : Bool) : List ResultRec :=
  let pd := searchCheapestByWeapon cat w (some 25)
  if isST then pd.filter isStatRec else pd

/-- The weapon branch of `search`'s most-expensive case (lines 1046-1052). -/
def mostExpensiveCase (cat : Catalog) (w : String) (isST : Bool) : List ResultRec :=
  let pd := searchMostExpensiveByWeapon cat w (some 25)
  if isST then pd.filter isStatRec else pd

/-- The "prefer StatTrak results, else keep all" filter used at
lines 1085-1089, 1129-1133 and 1164-1168. -/
def preferStat (p : α → Bool) (isST : Bool) (l : List α) : List α :=
  if isST then
    let st := l.filter p
    if st.isEmpty then l else st
  else l

/-- `search(query, limit)` (lines 919-1226).  `fromHier` is the
`_from_hierarchical` instance flag as read on entry (a fresh engine reads
`False`); `px`/`pr` are the fuzzywuzzy oracles. -/
def search (px : ExtractOracle) (pr : RatioOracle) (cat : Catalog)
    (fromHier : Bool) (query : String) (limit : ℕ) : List ResultRec :=
  let hier := if !fromHier then hierarchicalSearch px cat query limit else []
  if !fromHier && hier ≠ [] then hier
  else
    let q := correctSpelling (stripS (lowerS query))
    let dp := detectPriceQuery q
    let isPQ := dp.1
    let maxP := dp.2.1
    let minP := dp.2.2
    let detectedWeapon :=
      (weaponNamesSearch.find? (fun ka => ka.2.any (fun a => containsS q a))).map (·.1)
    let isST := isStatTerms q
    let skinName :=
      match detectedWeapon with
      | none => ""
      | some w =>
        let aliases := ((weaponNamesSearch.find? (fun ka => ka.1 == w)).map (·.2)).getD []
        let c1 := aliases.foldl (fun acc a => replaceS acc a "") q
        let c2 := searchCleanupTerms.foldl (fun acc t => replaceS acc t "") c1
        stripS c2
    -- Case 1: price range query
    let case1 : Option (List ResultRec) :=
      if isPQ && (maxP.isSome || minP.isSome) then
        let prs := searchByPriceRange cat detectedWeapon maxP (minP.getD 0)
        if prs ≠ [] then
          let prs2 := if isST then prs.filter isStatRec else prs
          if prs2 ≠ [] then some prs2 else none
        else none
      else none
    match case1 with
    | some r => r
    | none =>
    -- Case 2: cheapest query
    let case2 : Option (List ResultRec) :=
      if containsS q "cheapest" || containsS q "lowest price" ||
         containsS q "least expensive" then
        match detectedWeapon with
        | some w =>
          let pd2 := cheapestCase cat w isST
          if pd2 ≠ [] then some pd2 else none
        | none =>
          let allItems := (itemNames cat).filterMap (fun n =>
            if isST && !isStatName n then none else buildRec cat none n)
          let sorted := sortByLe leAscPrice allItems
          if sorted ≠ [] then some (sorted.take 25) else none
      else none
    match case2 with
    | some r => r
    | none =>
    -- Case 2.5: most expensive query
    let case2b : Option (List ResultRec) :=
      if containsS q "most expensive" || containsS q "highest price" ||
         containsS q "priciest" then
        match detectedWeapon with
        | some w =>
          let pd2 := mostExpensiveCase cat w isST
          if pd2 ≠ [] then some pd2 else none
        | none =>
          let allItems := (itemNames cat).filterMap (fun n =>
            if isST && !isStatName n then none else buildRec cat none n)
          let sorted := sortByLe leDescPrice allItems
          if sorted ≠ [] then some (sorted.take 25) else none
      else none
    match case2b with
    | some r => r
    | none =>
    -- Case 3: weapon + skin query
    let case3 : Option (List ResultRec) :=
      match detectedWeapon with
      | some w =>
        if skinName ≠ "" then
          let m1 := preferStat isStatName isST (searchByWeaponAndSkin px cat w skinName)
          if m1 ≠ [] then
            let res := m1.filterMap (buildRec cat none)
            let sorted :=
              if skinName ≠ "" then
                sortByLe (fun a b =>
                  decide (pr skinName (lowerS b.itemName) ≤ pr skinName (lowerS a.itemName))) res
              else res
            if sorted ≠ [] then some (takeTruthy limit sorted) else none
          else none
        else none
      | none => none
    match case3 with
    | some r => r
    | none =>
    -- Case 4: weapon-only query
    let case4 : Option (List ResultRec) :=
      match detectedWeapon with
      | some w =>
        if skinName = "" then
          let byPrice : Option (List ResultRec) :=
            if isPQ then
              let pd := searchCheapestByWeapon cat w (some limit)
              let pd2 := if isST && pd ≠ [] then pd.filter isStatRec else pd
              if pd2 ≠ [] then some pd2 else none
            else none
          match byPrice with
          | some r => some r
          | none =>
            let m1 := preferStat isStatName isST
              (weaponTypeIndexGet (itemNames cat) (lowerS w))
            if m1 ≠ [] then
              let res := m1.filterMap (buildRec cat none)
              let sorted :=
                if isPQ then sortByLe leAscPrice res else sortByLe leNameRec res
              if sorted ≠ [] then some (takeTruthy limit sorted) else none
            else none
        else none
      | none => none
    match case4 with
    | some r => r
    | none =>
    -- Case 5: exact match
    let case5 : Option (List ResultRec) :=
      let em := exactMatch cat q
      if em ≠ [] then
        let em2 := preferStat isStatName isST em
        let res := em2.filterMap (buildRec cat none)
        let res2 := if isPQ then sortByLe leAscPrice res else res
        if res2 ≠ [] then some (takeTruthy limit res2) else none
      else none
    match case5 with
    | some r => r
    | none =>
    -- Case 6: fuzzy fallback
    let fr := fuzzySearch px cat q (if limit = 0 then 20 else limit)
    if fr ≠ [] then
      let fr2 := preferStat (fun ns => isStatName ns.1) isST fr
      let res := fr2.filterMap (fun ns => buildRec cat (some ns.2) ns.1)
      let sorted := if isPQ then sortByLe leAscPrice res else sortByLe leDescScore res
      takeTruthy limit sorted
    else takeTruthy limit ([] : List ResultRec)

/-! ### `format_search_results` (lines 1228-1410) -/

/-- The type of the `self.search(query, limit)` calls the formatter makes
for alternative suggestions. -/
abbrev SearchFn := String → ℕ → List ResultRec

/-- Decimal rendering of Python `f"{x:.2f}"` for the rational price model
(rounding half away from zero; the engine only renders it, never parses
it back). -/
def fmt2 (q : ℚ) : String :=
  let sgn := if q < 0 then "-" else ""
  let aq := if q < 0 then -q else q
  let n : ℕ := (Rat.floor (aq * 100 + 1 / 2)).toNat
  sgn ++ toString (n / 100) ++ "." ++ (if n % 100 < 10 then "0" else "") ++
    toString (n % 100)

/-- One result block of the report (lines 1312-1321 and 1394-1403). -/
def formatItemBlock (r : ResultRec) : String :=
  r.itemName ++ ":\n• Skinport Price: $" ++ fmt2 r.minPrice ++
  (if r.maxPrice ≠ r.minPrice then " - $" ++ fmt2 r.maxPrice else "") ++
  "\n• Suggested Price: $" ++ fmt2 r.suggestedPrice ++
  "\n• Available: " ++ toString r.quantity ++ " items"

/-- Python `min(results, key=lambda x: x['min_price'])` (first minimum). -/
def minByPrice : List ResultRec → Option ResultRec
  | [] => none
  | x :: xs =>
    some (xs.foldl (fun acc y => if y.minPrice < acc.minPrice then y else acc) x)

/-- The weapon names scanned by the formatter (line 1277); an item matches
with or without its hyphens. -/
def formatterWeaponNames : List String :=
  ["ak-47", "m4a4", "m4a1-s", "awp", "desert eagle", "glock-18", "usp-s",
   "p250", "knife", "karambit"]

/-- The zero-result alternatives lookup of `format_search_results`
(lines 1286-1328): same weapon and skin with the other wear conditions,
then the non-StatTrak variant; when anything was found, a report with an
explanatory prefix. -/
def formatAlternates (searchFn : SearchFn) (w sk dw : String) : Option String :=
  let alt1 := ((wearConditions.map (·.1)).filter (fun u => u ≠ dw)).flatMap
    (fun u => searchFn ("stattrak " ++ w ++ " " ++ sk ++ " " ++ u) 3)
  let alt2 :=
    if alt1 = [] then searchFn (w ++ " " ++ sk ++ " " ++ dw) 3 else alt1
  if alt2 ≠ [] then
    let res3 := alt2.take 3
    let note := "I couldn't find a StatTrak™ " ++ w ++ " | " ++ sk ++
      " (" ++ dw ++ "), but here are some related alternatives:"
    let tip := "\n\nNote: Prices and availability change frequently. " ++
      "For the most up-to-date information, check Skinport directly."
    some (note ++ "\n\n" ++
      String.intercalate "\n\n" (res3.map formatItemBlock) ++ tip)
  else none

/-- `format_search_results(results, query)` (lines 1228-1410),
parameterized by the engine's `search` entry point used for alternative
lookups. -/
def formatSearchResults (searchFn : SearchFn) (results : List ResultRec)
    (query : String) : String :=
  let ql := lowerS query
  let dp := detectPriceQuery query
  let isPQ := dp.1
  let maxP := dp.2.1
  let minP := dp.2.2
  let isST := isStatTerms ql
  let detectedWear :=
    (wearConditions.find? (fun wa => wa.2.any (fun a => containsS ql a))).map (·.1)
  let detectedSkin := skinPatterns.find? (fun p => containsS ql p)
  let detectedWeapon :=
    (formatterWeaponNames.find? (fun w =>
      containsS ql w || containsS ql (replaceS w "-" ""))).map upperS
  let alternatesReport : Option String :=
    match results, detectedWeapon, detectedSkin, detectedWear, isST with
    | [], some w, some sk, some dw, true => formatAlternates searchFn w sk dw
    | _, _, _, _, _ => none
  match alternatesReport with
  | some s => s
  | none =>
  if results = [] then
    match detectedWeapon, detectedSkin, detectedWear, isST with
    | some w, some sk, some dw, true =>
      "I couldn't find the StatTrak™ " ++ w ++ " | " ++ sk ++ " (" ++ dw ++
      ") in the current data. This item might be unavailable on Skinport " ++
      "or our data may need to be updated. For real-time availability, " ++
      "check Skinport directly."
    | _, _, _, _ =>
      "I couldn't find any CS2 skins matching '" ++ query ++
      "'. Please try using a more specific name or check your spelling."
  else
    let isLimited := isPQ && (maxP.isSome || minP.isSome) && results.length = 15
    let header0 := "Found " ++ toString results.length ++ " CS2 skin" ++
      (if results.length ≠ 1 then "s" else "") ++
      (if isST then " (StatTrak™)" else "") ++
      (match detectedWeapon with | some w => " for " ++ w | none => "") ++
      (match maxP, minP with
       | some mx, some mn => " between $" ++ fmt2 mn ++ " and $" ++ fmt2 mx
       | some mx, none => " under $" ++ fmt2 mx
       | none, some mn => " over $" ++ fmt2 mn
       | none, none => "")
    let isMostExp := containsS ql "most expensive" ||
      containsS ql "highest price" || containsS ql "priciest"
    let header1 := header0 ++
      (if isMostExp then
        match results with
        | r0 :: _ =>
          "\nThe most expensive " ++ (if isST then "StatTrak™ " else "") ++
          (detectedWeapon.getD "") ++ " skin is " ++ r0.itemName ++ " at $" ++
          fmt2 r0.minPrice
        | [] => ""
      else if containsS ql "cheapest" || containsS ql "lowest price" || isPQ then
        match minByPrice results with
        | some r0 =>
          "\nThe cheapest " ++ (if isST then "StatTrak™ " else "") ++
          (detectedWeapon.getD "") ++ " skin is " ++ r0.itemName ++ " at $" ++
          fmt2 r0.minPrice
        | none => ""
      else "")
    let header2 := header1 ++
      (if isLimited then
        "\n\nNote: I've shown the top 15 relevant skins. To see more specific results, try:" ++
        (if detectedWeapon.isNone then
          "\n• Adding a specific weapon (like 'AK-47 under $" ++
          fmt2 (maxP.getD 0) ++ "')"
        else "") ++
        "\n• Narrowing the price range (like 'between $" ++
        fmt2 (maxP.getD 0 - 5) ++ " and $" ++ fmt2 (maxP.getD 0) ++ "')" ++
        "\n• Specifying a skin name (like '" ++ (detectedWeapon.getD "AWP") ++
        " Asiimov')"
      else "")
    header2 ++ "\n\n" ++
      String.intercalate "\n\n" (results.map formatItemBlock) ++
      "\n\nNote: Prices and availability change frequently. For real-time information, check Skinport directly."

/-! ### Concrete fixtures used by witnesses and counterexamples -/

/-- A one-item catalog (all price fields absent except defaults). -/
def dragonLoreCat : Catalog := [("AWP | Dragon Lore (Factory New)", {})]

/-- A StatTrak and a non-StatTrak variant of the same skin. -/
def blueSteelCat : Catalog :=
  [("StatTrak™ AK-47 | Blue Steel (Field-Tested)", ⟨.val 30, .val 40, .val 35, 1⟩),
   ("AK-47 | Blue Steel (Field-Tested)", ⟨.val 8, .val 12, .val 10, 5⟩)]

/-- An item whose name is a price query and whose price is unparseable,
next to a cheap priced item. -/
def safariCat : Catalog :=
  [("AWP under 50 dollars", ⟨.invalid, .absent, .absent, 0⟩),
   ("AWP | Safari Mesh (Field-Tested)", ⟨.val 10, .val 12, .val 11, 7⟩)]

/-- Two names equal up to case (both survive a load, since dict keys are
case-sensitive), with ascending prices in catalog order. -/
def dupCaseCat : Catalog :=
  [("Under 5 Dollars", ⟨.val 1, .val 1, .val 1, 1⟩),
   ("UNDER 5 DOLLARS", ⟨.val 100, .val 100, .val 100, 1⟩)]

/-- A catalog whose only item has no price fields at all (the `'999999'`
sentinel default applies to every field). -/
def sentinelCat : Catalog := [("AWP | Test", ⟨.absent, .absent, .absent, 0⟩)]

/-- A one-item catalog with ordinary prices. -/
def boundsCat : Catalog := [("AWP | X", ⟨.val 10, .val 10, .val 10, 1⟩)]

/-- The result record `search_by_price_range` builds for `boundsCat`. -/
def boundsRec : ResultRec := ⟨"AWP | X", 10, 10, 10, 1, none⟩

/-- A catalog with one trademark-marked StatTrak item. -/
def tmCat : Catalog := [("StatTrak™ M4A4 | Howl (Minimal Wear)", {})]

/-- A `process.extract` oracle that returns nothing. -/
def emptyOracle : ExtractOracle := fun _ _ _ => []

/-- A `fuzz.partial_ratio` oracle that scores everything 0. -/
def zeroRatio : RatioOracle := fun _ _ => 0

/-! ## Helper lemmas -/

theorem mem_insertSorted {le : α → α → Bool} {x a : α} :
    ∀ {l : List α}, a ∈ insertSorted le x l ↔ a = x ∨ a ∈ l := by
  intro l
  induction l with
  | nil => simp [insertSorted]
  | cons y ys ih =>
    by_cases h : le x y = true
    · simp [insertSorted, h]
    · simp only [insertSorted, if_neg h, List.mem_cons, ih]
      tauto

theorem pairwise_insertSorted {le : α → α → Bool}
    (htrans : ∀ a b c, le a b = true → le b c = true → le a c = true)
    (htot : ∀ a b, le a b = true ∨ le b a = true) (x : α) :
    ∀ {l : List α}, l.Pairwise (fun a b => le a b = true) →
      (insertSorted le x l).Pairwise (fun a b => le a b = true) := by
  intro l
  induction l with
  | nil => simp [insertSorted]
  | cons y ys ih =>
    intro hp
    rcases List.pairwise_cons.mp hp with ⟨hy, hys⟩
    by_cases h : le x y = true
    · rw [insertSorted, if_pos h]
      refine List.pairwise_cons.mpr ⟨?_, hp⟩
      intro z hz
      rcases List.mem_cons.mp hz with rfl | hz
      · exact h
      · exact htrans x y z h (hy z hz)
    · rw [insertSorted, if_neg h]
      refine List.pairwise_cons.mpr ⟨?_, ih hys⟩
      intro z hz
      rcases mem_insertSorted.mp hz with hzx | hz
      · rw [hzx]
        rcases htot x y with h1 | h1
        · exact absurd h1 h
        · exact h1
      · exact hy z hz

theorem pairwise_sortByLe {le : α → α → Bool}
    (htrans : ∀ a b c, le a b = true → le b c = true → le a c = true)
    (htot : ∀ a b, le a b = true ∨ le b a = true) :
    ∀ (l : List α), (sortByLe le l).Pairwise (fun a b => le a b = true) := by
  intro l
  induction l with
  | nil => simp [sortByLe]
  | cons x xs ih => exact pairwise_insertSorted htrans htot x ih

theorem mem_sortByLe {le : α → α → Bool} {a : α} :
    ∀ {l : List α}, a ∈ sortByLe le l ↔ a ∈ l := by
  intro l
  induction l with
  | nil => simp [sortByLe]
  | cons x xs ih => simp [sortByLe, mem_insertSorted, ih]

theorem find?_first {p : α → Bool} :
    ∀ {l : List α} {b : α}, l.find? p = some b →
      p b = true ∧ ∃ l1 l2, l = l1 ++ b :: l2 ∧ ∀ x ∈ l1, p x = false := by
  intro l
  induction l with
  | nil => intro b h; simp at h
  | cons a as ih =>
    intro b h
    by_cases ha : p a = true
    · rw [List.find?_cons_of_pos _ ha] at h
      obtain rfl : a = b := by injection h
      exact ⟨ha, [], as, rfl, by intro x hx; simp at hx⟩
    · rw [List.find?_cons_of_neg _ (by simpa using ha)] at h
      obtain ⟨hb, l1, l2, rfl, hl1⟩ := ih h
      refine ⟨hb, a :: l1, l2, rfl, ?_⟩
      intro x hx
      rcases List.mem_cons.mp hx with rfl | hx
      · simpa using ha
      · exact hl1 x hx

theorem buildRec_itemName {cat : Catalog} {s : Option ℕ} {n : String}
    {r : ResultRec} (h : buildRec cat s n = some r) : r.itemName = n := by
  unfold buildRec at h
  rcases hl : lookupItem cat n with _ | d <;> rw [hl] at h
  · exact absurd h (by simp)
  · dsimp only at h
    split at h
    · cases h; rfl
    · exact absurd h (by simp)

theorem strNeEmpty {s : String} (h : s.data ≠ []) : s ≠ "" := by
  intro e
  rw [e] at h
  exact h rfl

theorem appendNeEmptyLeft (s t : String) (h : s ≠ "") : s ++ t ≠ "" := by
  apply strNeEmpty
  rw [String.data_append]
  intro he
  rcases List.append_eq_nil.mp he with ⟨h1, _⟩
  exact h (by cases s; simp_all)

/-- Items surviving `parsedFilter` with the StatTrak flag set are
StatTrak items. -/
theorem mem_parsedFilter_stat {wt : Option String} {sk : String}
    {wc : Option String} {names : List String} {n : String}
    (hn : n ∈ parsedFilter true wt sk wc names) :
    (containsS (lowerS n) "stattrak™" || containsS (lowerS n) "stattrak") = true := by
  unfold parsedFilter at hn
  rw [List.mem_filter] at hn
  have h2 := hn.2
  dsimp only at h2
  simp only [Bool.and_eq_true] at h2
  have h3 := h2.1.1.1
  simpa using h3

/-- `mbpcSkinStage` with the StatTrak flag returns StatTrak items only. -/
theorem mem_mbpcSkinStage_stat {cat : Catalog} {wt : Option String}
    {wc : Option String} {q3 : String} {n : String}
    (hn : n ∈ mbpcSkinStage cat true wt wc q3) :
    (containsS (lowerS n) "stattrak™" || containsS (lowerS n) "stattrak") = true := by
  unfold mbpcSkinStage at hn
  dsimp only at hn
  split at hn
  · exact absurd hn (List.not_mem_nil n)
  · exact mem_parsedFilter_stat hn

/-- `mbpcWearStage` with the StatTrak flag returns StatTrak items only. -/
theorem mem_mbpcWearStage_stat {cat : Catalog} {wt : Option String}
    {q2 : String} {n : String} (hn : n ∈ mbpcWearStage cat true wt q2) :
    (containsS (lowerS n) "stattrak™" || containsS (lowerS n) "stattrak") = true := by
  unfold mbpcWearStage at hn
  split at hn <;> exact mem_mbpcSkinStage_stat hn

/-- `mbpcWeaponStage` with the StatTrak flag returns StatTrak items only. -/
theorem mem_mbpcWeaponStage_stat {cat : Catalog} {q1 : String} {n : String}
    (hn : n ∈ mbpcWeaponStage cat true q1) :
    (containsS (lowerS n) "stattrak™" || containsS (lowerS n) "stattrak") = true := by
  unfold mbpcWeaponStage at hn
  split at hn <;> exact mem_mbpcWearStage_stat hn

/-! ## Claim C4 -/

set_option maxRecDepth 4000 in
/-- Claim C4, counterexample: query normalization (`_correct_spelling`) is
not idempotent — normalizing `"st"` yields `"stattrak"`, and normalizing
that again yields a different string (`"stattrakattrak"`), because the
two-letter synonym `"st"` matches inside the marker it itself produced. -/
theorem spellingNotIdempotentCounterexample :
    correctSpelling (correctSpelling "st") ≠ correctSpelling "st" := by decide

set_option maxRecDepth 4000 in
/-- Claim C4, amended: normalization is deterministic but not idempotent.
Re-normalizing a normalized string can expand the StatTrak marker (and
corrected skin names) again: `"st"` normalizes to `"stattrak"`, which
re-normalizes to `"stattrakattrak"`; likewise `"cheapest"` becomes
`"cheapestattrak"`. -/
theorem spellingNormalizationExpands :
    correctSpelling "st" = "stattrak" ∧
    correctSpelling "stattrak" = "stattrakattrak" ∧
    correctSpelling "cheapest" = "cheapestattrak" ∧
    ¬ (∀ q : String, correctSpelling (correctSpelling q) = correctSpelling q) := by
  refine ⟨by decide, by decide, by decide, fun h => ?_⟩
  exact absurd (h "st") (by decide)

/-! ## Claim C8 -/

/-- The two branches of `_build_weapon_index` run the same first-match
loop, so the classification is one `find?` over the ordered weapon list. -/
theorem firstWeaponOf_eq (n : String) :
    firstWeaponOf n =
      weaponTypes.find? (fun w => containsS (lowerS n) (lowerS w)) := by
  unfold firstWeaponOf
  dsimp only
  split <;> rfl

/-- Claim C8: after catalog load, an item name is in the bucket `wl` of the
weapon-type index exactly when the first entry of the ordered
`weapon_types` list whose name occurs case-insensitively in the item name
lower-cases to `wl`; that first entry matches the item while every earlier
entry does not, and an item is in at most one bucket (buckets are pairwise
disjoint, classification is deterministic). -/
theorem weaponIndexFirstMatch (names : List String) (wl n : String) :
    (n ∈ weaponBucket names wl ↔
      n ∈ names ∧ ∃ W, firstWeaponOf n = some W ∧ lowerS W = wl) ∧
    (∀ W, firstWeaponOf n = some W →
      W ∈ weaponTypes ∧ containsS (lowerS n) (lowerS W) = true ∧
      ∃ l1 l2, weaponTypes = l1 ++ W :: l2 ∧
        ∀ W' ∈ l1, containsS (lowerS n) (lowerS W') = false) ∧
    (∀ wl', n ∈ weaponBucket names wl → n ∈ weaponBucket names wl' → wl = wl') := by
  have hbucket : ∀ wl0, n ∈ weaponBucket names wl0 ↔
      n ∈ names ∧ ∃ W, firstWeaponOf n = some W ∧ lowerS W = wl0 := by
    intro wl0
    unfold weaponBucket
    simp only [List.mem_filter, beq_iff_eq, Option.map_eq_some']
  refine ⟨hbucket wl, ?_, ?_⟩
  · intro W hW
    have hfind : weaponTypes.find? (fun w => containsS (lowerS n) (lowerS w)) = some W := by
      rw [firstWeaponOf_eq] at hW
      exact hW
    obtain ⟨hp, l1, l2, heq, hl1⟩ := find?_first hfind
    exact ⟨List.mem_of_find?_eq_some hfind, hp, l1, l2, heq, hl1⟩
  · intro wl' h1 h2
    obtain ⟨-, W1, hW1, hl1⟩ := (hbucket wl).mp h1
    obtain ⟨-, W2, hW2, hl2⟩ := (hbucket wl').mp h2
    rw [hW1] at hW2
    obtain rfl : W1 = W2 := by injection hW2
    rw [← hl1, ← hl2]

/-- Claim C8, witness: `"StatTrak™ AK-47 | Karambit Knife"` contains the
weapon names AK-47, Karambit and Knife, and is classified under `"ak-47"`
only — the first match in the ordered weapon list wins. -/
theorem weaponIndexFirstMatchWitness :
    containsS (lowerS "StatTrak™ AK-47 | Karambit Knife") (lowerS "AK-47") = true ∧
    ("ak-47" : String) = "ak-47" ∧
    "StatTrak™ AK-47 | Karambit Knife" ∉
      weaponBucket ["StatTrak™ AK-47 | Karambit Knife"] "karambit" := by
  refine ⟨((weaponIndexFirstMatch ["StatTrak™ AK-47 | Karambit Knife"] "ak-47"
      "StatTrak™ AK-47 | Karambit Knife").2.1 "AK-47" (by decide)).2.1, ?_, by decide⟩
  exact (weaponIndexFirstMatch ["StatTrak™ AK-47 | Karambit Knife"] "ak-47"
    "StatTrak™ AK-47 | Karambit Knife").2.2 "ak-47" (by decide) (by decide)

/-! ## Claim C2 -/

/-- Claim C2, counterexample: `exact_match` is not restricted to
case-insensitive full-string equality.  For the query `"awp | dragon"`
no catalog name is equal (the equality stage is empty), yet `exact_match`
returns the item `"AWP | Dragon Lore (Factory New)"` through its
component-parsing fallback. -/
theorem exactMatchNotEqualityOnlyCounterexample :
    exactMatch dragonLoreCat "awp | dragon" = ["AWP | Dragon Lore (Factory New)"] ∧
    exactEqualMatches dragonLoreCat "awp | dragon" = [] ∧
    lowerS "AWP | Dragon Lore (Factory New)" ≠ stripS (lowerS "awp | dragon") := by
  decide

/-- Claim C2, amended: when some catalog name is case-insensitively equal
to the query (directly, or with `stattrak` rewritten to `stattrak™`),
`exact_match` returns exactly those equal names, and every returned name
is such an equal name; only when no equal name exists does it fall back
to component-parsed, prefix and substring matching (which can return
non-equal names, and the rewrite can match more than one name). -/
theorem exactMatchEqualityFirst (cat : Catalog) (q : String)
    (h : exactEqualMatches cat q ≠ []) :
    exactMatch cat q = exactEqualMatches cat q ∧
    ∀ n ∈ exactEqualMatches cat q,
      lowerS n = stripS (lowerS q) ∨
      (containsS (stripS (lowerS q)) "stattrak" = true ∧
       replaceS (stripS (lowerS q)) "stattrak" "stattrak™" = lowerS n) := by
  constructor
  · unfold exactMatch
    dsimp only
    rw [if_pos h]
  · intro n hn
    unfold exactEqualMatches at hn
    rw [List.mem_filter] at hn
    have h2 := hn.2
    dsimp only at h2
    simp only [Bool.or_eq_true, Bool.and_eq_true, beq_iff_eq] at h2
    rcases h2 with h2 | ⟨⟨⟨_, hctn⟩, _⟩, heq⟩
    · exact Or.inl h2.symm
    · exact Or.inr ⟨hctn, heq⟩

/-- Claim C2, witness: for a query equal to a catalog name the equality
stage is what `exact_match` returns. -/
theorem exactMatchEqualityFirstWitness :
    exactMatch dragonLoreCat "AWP | Dragon Lore (Factory New)" =
      exactEqualMatches dragonLoreCat "AWP | Dragon Lore (Factory New)" :=
  (exactMatchEqualityFirst dragonLoreCat "AWP | Dragon Lore (Factory New)"
    (by decide)).1

/-! ## Claim C10 -/

/-- Claim C10: trademark tolerance of `exact_match`.  If the query
contains `"stattrak"` without the `"™"` symbol, and rewriting
`"stattrak"` to `"stattrak™"` in the (lower-cased, stripped) query makes
it equal to the lower-cased catalog name, that name is returned by
`exact_match` — omitting the trademark symbol never misses an
otherwise-equal name. -/
theorem exactMatchTrademarkTolerance (cat : Catalog) (q n : String)
    (hmem : n ∈ itemNames cat)
    (hst : containsS (stripS (lowerS q)) "stattrak" = true)
    (_hnotm : containsS (stripS (lowerS q)) "™" = false)
    (htm : containsS (lowerS n) "stattrak™" = true)
    (heq : replaceS (stripS (lowerS q)) "stattrak" "stattrak™" = lowerS n) :
    n ∈ exactMatch cat q := by
  have hn : n ∈ exactEqualMatches cat q := by
    unfold exactEqualMatches
    rw [List.mem_filter]
    refine ⟨hmem, ?_⟩
    dsimp only
    simp only [Bool.or_eq_true, Bool.and_eq_true, beq_iff_eq]
    exact Or.inr ⟨⟨⟨Or.inl (Or.inl (Or.inr hst)), hst⟩, htm⟩, heq⟩
  have hne : exactEqualMatches cat q ≠ [] := by
    intro h0
    rw [h0] at hn
    exact absurd hn (List.not_mem_nil n)
  unfold exactMatch
  dsimp only
  rw [if_pos hne]
  exact hn

/-- Claim C10, witness: the query `"stattrak m4a4 | howl (minimal wear)"`
(no ™) finds `"StatTrak™ M4A4 | Howl (Minimal Wear)"`. -/
theorem exactMatchTrademarkToleranceWitness :
    "StatTrak™ M4A4 | Howl (Minimal Wear)" ∈
      exactMatch tmCat "stattrak m4a4 | howl (minimal wear)" :=
  exactMatchTrademarkTolerance tmCat "stattrak m4a4 | howl (minimal wear)"
    "StatTrak™ M4A4 | Howl (Minimal Wear)"
    (by decide) (by decide) (by decide) (by decide) (by decide)

/-! ## Claim C5 -/

set_option maxHeartbeats 4000000 in
set_option maxRecDepth 100000 in
/-- Claim C5, counterexample: the two-letter StatTrak abbreviation is
matched as a plain substring, not as a standalone token.  For the query
`"steel"` the only StatTrak term that occurs is `"st"` (inside the word),
yet the engine restricts the result to the StatTrak variant: the
non-StatTrak `"AK-47 | Blue Steel (Field-Tested)"`, whose name contains
`"steel"`, is filtered out. -/
theorem stShortTokenCounterexample :
    stTerms.filter (fun t => containsS "steel" t) = ["st"] ∧
    search emptyOracle zeroRatio blueSteelCat false "steel" 10 =
      [⟨"StatTrak™ AK-47 | Blue Steel (Field-Tested)", 30, 40, 35, 1, some 100⟩] ∧
    containsS (lowerS "AK-47 | Blue Steel (Field-Tested)") "steel" = true ∧
    isStatName "AK-47 | Blue Steel (Field-Tested)" = false := by
  decide

/-- Claim C5, amended: any query containing `"st"` as a substring — even
only inside words such as `"steel"` or `"cheapest"` — sets the engine's
StatTrak flag (`is_stattrak`), and the component-parsed matcher then
returns only StatTrak items. -/
theorem stSubstringSetsStatTrakFlag (q : String)
    (h : containsS q "st" = true) :
    isStatTerms q = true ∧
    ∀ (cat : Catalog) (n : String), n ∈ matchByParsedComponents cat q →
      (containsS (lowerS n) "stattrak™" || containsS (lowerS n) "stattrak") = true := by
  have h1 : isStatTerms q = true := by
    unfold isStatTerms
    rw [List.any_eq_true]
    exact ⟨"st", by decide, h⟩
  refine ⟨h1, ?_⟩
  intro cat n hn
  unfold matchByParsedComponents at hn
  rw [h1] at hn
  rw [if_pos rfl] at hn
  exact mem_mbpcWeaponStage_stat hn

/-- Claim C5, witness: `"steel"` contains `"st"`, the flag is set, and the
item the parsed matcher returns is a StatTrak item. -/
theorem stSubstringSetsStatTrakFlagWitness :
    isStatTerms "steel" = true ∧
    (containsS (lowerS "StatTrak™ AK-47 | Blue Steel (Field-Tested)") "stattrak™" ||
     containsS (lowerS "StatTrak™ AK-47 | Blue Steel (Field-Tested)") "stattrak") = true := by
  have h := stSubstringSetsStatTrakFlag "steel" (by decide)
  exact ⟨h.1, h.2 blueSteelCat "StatTrak™ AK-47 | Blue Steel (Field-Tested)" (by decide)⟩

/-! ## Claim C1 -/

/-- `lookupItem` found pairs are catalog entries. -/
theorem lookupItem_mem {cat : Catalog} {n : String} {d : ItemData}
    (h : lookupItem cat n = some d) : (n, d) ∈ cat := by
  unfold lookupItem at h
  rw [Option.map_eq_some'] at h
  obtain ⟨p, hp, hd⟩ := h
  have hmem := List.mem_of_find?_eq_some hp
  have hpred := List.find?_some hp
  rw [beq_iff_eq] at hpred
  have hpd : p = (n, d) := by
    cases p
    simp only at hpred hd
    rw [hpred, hd]
  rw [hpd] at hmem
  exact hmem

/-- Claim C1, counterexample: an item whose `min_price` field is absent is
given the sentinel price 999999 (the string default `'999999'`) and is
returned by a price-range query with no upper bound — the "unknown" price
is not excluded. -/
theorem priceRangeSentinelCounterexample :
    searchByPriceRange sentinelCat none none 10 =
      [⟨"AWP | Test", 999999, 999999, 999999, 0, none⟩] ∧
    lookupItem sentinelCat "AWP | Test" =
      some ⟨PriceField.absent, PriceField.absent, PriceField.absent, 0⟩ := by
  decide

/-- Claim C1, amended: every item returned by `search_by_price_range`
satisfies the inclusive bounds `min_price ≤ price` and `price ≤ max_price`
(when an upper bound is given), and its price is the successfully parsed
value of its stored `min_price` field — where an absent field parses to
the sentinel 999999 and is compared like a real price, and an item whose
field is present but unparseable is never returned. -/
theorem priceRangeBuild_spec {cat : Catalog} {maxP : Option ℚ} {minP : ℚ}
    {n : String} {r : ResultRec} (hf : priceRangeBuild cat maxP minP n = some r) :
    r.itemName = n ∧ minP ≤ r.minPrice ∧ (∀ m, maxP = some m → r.minPrice ≤ m) ∧
    ∃ d, (n, d) ∈ cat ∧ parsePriceField d.minPrice = some r.minPrice := by
  unfold priceRangeBuild at hf
  rcases hl : lookupItem cat n with _ | d <;> rw [hl] at hf
  · exact absurd hf (by simp)
  · dsimp only at hf
    split at hf
    · exact absurd hf (by simp)
    · rcases hp : parsePriceField d.minPrice with _ | p <;> rw [hp] at hf
      · exact absurd hf (by simp)
      · dsimp only at hf
        split at hf
        · rename_i hguard
          split at hf
          · rename_i mx sg hmx hsg
            obtain rfl : (⟨n, p, mx, sg, d.quantity, none⟩ : ResultRec) = r := by
              injection hf
            rw [Bool.and_eq_true] at hguard
            obtain ⟨hmax, hmin⟩ := hguard
            refine ⟨rfl, of_decide_eq_true hmin, ?_, d, lookupItem_mem hl, hp⟩
            intro m hm
            rw [hm] at hmax
            exact of_decide_eq_true hmax
          · exact absurd hf (by simp)
        · exact absurd hf (by simp)


/-- Claim C1, amended (continued from `priceRangeBuild_spec`): see the
doc of `priceRangeBoundsAmended`. -/
theorem priceRangeBoundsAmended (cat : Catalog) (w : Option String)
    (maxP : Option ℚ) (minP : ℚ) (r : ResultRec)
    (hr : r ∈ searchByPriceRange cat w maxP minP) :
    minP ≤ r.minPrice ∧ (∀ m, maxP = some m → r.minPrice ≤ m) ∧
    ∃ d, (r.itemName, d) ∈ cat ∧ parsePriceField d.minPrice = some r.minPrice := by
  unfold searchByPriceRange at hr
  dsimp only at hr
  split at hr
  · exact absurd hr (List.not_mem_nil r)
  · have h1 := List.take_subset 15 _ hr
    have hpd : r ∈ (match w with
        | some w0 => if w0 = "" then itemNames cat
                     else weaponTypeIndexGet (itemNames cat) (lowerS w0)
        | none => itemNames cat).filterMap (priceRangeBuild cat maxP minP) := by
      split at h1
      · exact mem_sortByLe.mp h1
      · split at h1
        · exact mem_sortByLe.mp h1
        · split at h1
          · exact mem_sortByLe.mp h1
          · exact mem_sortByLe.mp h1
    obtain ⟨n, _, hf⟩ := List.mem_filterMap.mp hpd
    obtain ⟨hname, h2, h3, d, hd, hp⟩ := priceRangeBuild_spec hf
    exact ⟨h2, h3, d, by rw [hname]; exact hd, hp⟩

/-- Claim C1, witness: a priced item inside the bounds is returned with
its parsed price. -/
theorem priceRangeBoundsAmendedWitness :
    (5 : ℚ) ≤ boundsRec.minPrice ∧
    (∀ m, (some 20 : Option ℚ) = some m → boundsRec.minPrice ≤ m) ∧
    ∃ d, (boundsRec.itemName, d) ∈ boundsCat ∧
      parsePriceField d.minPrice = some boundsRec.minPrice :=
  priceRangeBoundsAmended boundsCat none (some 20) 5 boundsRec (by decide)

/-! ## Claim C3 -/

/-- When a previous stage produced matches, the fuzzy stage of
`hierarchical_search` is skipped. -/
theorem hsfFuzzyStage_skip (fz : String → ℕ → List (String × ℕ))
    (cat : Catalog) (q : String) (limit : ℕ) {em1 : List String}
    (h : em1 ≠ []) :
    hsfFuzzyStage fz cat q limit em1 = hsfBuild cat em1 q limit := by
  unfold hsfFuzzyStage
  have : (em1 = [] && q ≠ "") = false := by
    simp [h]
  rw [this]
  simp

/-- Records built by `hsfBuild` keep the names they were built from. -/
theorem mem_hsfBuild (cat : Catalog) (em : List String) (q : String)
    (limit : ℕ) (r : ResultRec)
    (hne : ∃ n ∈ em, (buildRec cat (some 100) n).isSome)
    (hr : r ∈ hsfBuild cat em q limit) : r.itemName ∈ em := by
  unfold hsfBuild at hr
  dsimp only at hr
  have hres : em.filterMap (buildRec cat (some 100)) ≠ [] := by
    obtain ⟨n, hn, hs⟩ := hne
    obtain ⟨r0, hr0⟩ := Option.isSome_iff_exists.mp hs
    intro h0
    have hmem : r0 ∈ em.filterMap (buildRec cat (some 100)) :=
      List.mem_filterMap.mpr ⟨n, hn, hr0⟩
    rw [h0] at hmem
    exact absurd hmem (List.not_mem_nil r0)
  rw [if_neg hres] at hr
  obtain ⟨n, hn, hf⟩ := List.mem_filterMap.mp (List.take_subset limit _ hr)
  rw [buildRec_itemName hf]
  exact hn

/-- Claim C3, counterexample: with a non-empty exact-match stage the fuzzy
stage is indeed not consulted, but the returned results need not be
derived from the exact matches: here the only exact match has an
unparseable price, so the price-intent fallback returns a different item. -/
theorem hierarchicalFallbackCounterexample :
    exactMatch safariCat "awp under 50 dollars" = ["AWP under 50 dollars"] ∧
    hierarchicalSearchF (fun _ _ => []) safariCat "awp under 50 dollars" 10 =
      [⟨"AWP | Safari Mesh (Field-Tested)", 10, 12, 11, 7, none⟩] ∧
    "AWP | Safari Mesh (Field-Tested)" ∉
      exactMatch safariCat "awp under 50 dollars" := by
  decide

/-- Claim C3, amended: when the exact-match stage (or the component-parsed
stage) is non-empty, `hierarchical_search` never consults the fuzzy stage
(its output does not depend on the fuzzy function at all); and when some
exact match also has parseable price data, every returned record is one
of the exact matches.  (When every exact match has unparseable prices, a
price-intent fallback may return other items — see the counterexample.) -/
theorem hierarchicalShortCircuit
    (fz fz2 : String → ℕ → List (String × ℕ)) (cat : Catalog) (q : String)
    (limit : ℕ)
    (h : exactMatch cat (stripS (lowerS q)) ≠ [] ∨
         matchByParsedComponents cat (stripS (lowerS q)) ≠ []) :
    hierarchicalSearchF fz cat q limit = hierarchicalSearchF fz2 cat q limit ∧
    (∀ r ∈ hierarchicalSearchF fz cat q limit,
      exactMatch cat (stripS (lowerS q)) ≠ [] →
      (∃ n ∈ exactMatch cat (stripS (lowerS q)),
        (buildRec cat (some 100) n).isSome) →
      r.itemName ∈ exactMatch cat (stripS (lowerS q))) := by
  have hem1 : (if exactMatch cat (stripS (lowerS q)) = [] then
      matchByParsedComponents cat (stripS (lowerS q))
      else exactMatch cat (stripS (lowerS q))) ≠ [] := by
    rcases h with h | h
    · rw [if_neg h]; exact h
    · by_cases h0 : exactMatch cat (stripS (lowerS q)) = []
      · rw [if_pos h0]; exact h
      · rw [if_neg h0]; exact h0
  constructor
  · unfold hierarchicalSearchF
    rw [hsfFuzzyStage_skip fz cat _ limit hem1,
        hsfFuzzyStage_skip fz2 cat _ limit hem1]
  · intro r hr hex hne
    unfold hierarchicalSearchF at hr
    rw [hsfFuzzyStage_skip fz cat _ limit hem1] at hr
    rw [if_neg hex] at hr hem1
    exact mem_hsfBuild cat _ _ limit r hne hr

/-- Claim C3, witness: with a parseable-priced exact match the output is
fuzzy-independent and drawn from the exact matches. -/
theorem hierarchicalShortCircuitWitness :
    hierarchicalSearchF (fun _ _ => [("junk", 99)]) blueSteelCat "steel" 10 =
      hierarchicalSearchF (fun _ _ => []) blueSteelCat "steel" 10 ∧
    (⟨"StatTrak™ AK-47 | Blue Steel (Field-Tested)", 30, 40, 35, 1,
        some 100⟩ : ResultRec).itemName ∈
      exactMatch blueSteelCat (stripS (lowerS "steel")) := by
  have h := hierarchicalShortCircuit (fun _ _ => [("junk", 99)]) (fun _ _ => [])
    blueSteelCat "steel" 10 (Or.inl (by decide))
  refine ⟨h.1, ?_⟩
  exact h.2 _ (by decide) (by decide) (by decide)

/-! ## Claim C6 -/

unseal Rat.mul Rat.add Rat.inv in
/-- Claim C6, counterexample: the bare-amount fallback of
`detect_price_query` captures the first digit run in the query, not the
dollar-marked amount: for `"ak-47 $50"` the claim predicts the window
(45, 55) around X = 50, but the code builds it around 47 (from "ak-47"),
returning max = 51.7 and min = 42.3. -/
theorem priceWindowFirstNumberCounterexample :
    detectPriceQuery "ak-47 $50" =
      (true, some ((517 : ℚ) / 10), some ((423 : ℚ) / 10)) ∧
    detectPriceQuery "ak-47 $50" ≠ (true, some 55, some 45) := by
  decide

/-- Claim C6, amended: the "between A and B" pattern is checked first and,
whenever it matches with A, B not both zero, both bounds are set to
(min = A, max = B) and no single-bound result is produced; the bare-amount
fallback (no between/under/over match, a digit run present, and the
keyword "price" or "$" in the query) yields the ±10% window around the
FIRST digit run of the query — which equals the dollar amount X only when
no earlier digit run occurs.  (With A = B = 0 the falsy-zero guard lets
the fallback overwrite the between result.) -/
theorem detectPriceQueryPrecedence :
    (∀ (q : String) (a b : ℚ),
      betweenSearch (lowerS q).data = some (a, b) → ¬(a = 0 ∧ b = 0) →
      detectPriceQuery q = (true, some b, some a)) ∧
    (∀ (q : String) (cap : List Char),
      betweenSearch (lowerS q).data = none →
      firstPatternValue underPatterns (lowerS q).data = none →
      firstPatternValue overPatterns (lowerS q).data = none →
      rxSearch barePattern (lowerS q).data = some [cap] →
      (containsS (lowerS q) "price" || containsS (lowerS q) "$") = true →
      detectPriceQuery q =
        (true, some (capToRat cap * (11 / 10)), some (capToRat cap * (9 / 10)))) := by
  constructor
  · intro q a b hb hz
    unfold detectPriceQuery
    rw [hb]
    simp only [detectBetweenStage]
    have hcond : (truthyQ (some b) || truthyQ (some a)) = true := by
      rw [Bool.or_eq_true]
      rcases not_and_or.mp hz with h | h
      · right
        simp [truthyQ, h]
      · left
        simp [truthyQ, h]
    unfold detectBareStage
    rw [hcond]
    rfl
  · intro q cap hbet hund hov hbare hkw
    unfold detectPriceQuery
    rw [hbet]
    simp only [detectBetweenStage]
    rw [hund, hov]
    unfold detectBareStage
    rw [hbare]
    rw [show (!(truthyQ (none : Option ℚ) || truthyQ (none : Option ℚ))) = true from rfl]
    rw [if_pos rfl]
    dsimp only
    unfold bareWindow
    rw [if_pos hkw]
    rfl

unseal Rat.mul Rat.add Rat.inv in
/-- Claim C6, witness: `"between $50 and $100"` yields min = 50, max = 100;
`"$30"` yields the ±10% window (27, 33). -/
theorem detectPriceQueryPrecedenceWitness :
    detectPriceQuery "between $50 and $100" = (true, some 100, some 50) ∧
    detectPriceQuery "$30" = (true, some 33, some 27) := by
  constructor
  · exact detectPriceQueryPrecedence.1 "between $50 and $100" 50 100
      (by decide) (by decide)
  · have h := detectPriceQueryPrecedence.2 "$30" ['3', '0']
      (by decide) (by decide) (by decide) (by decide) (by decide)
    rw [h]
    decide

/-! ## Claim C7 -/

/-- Transitivity of the ascending price order. -/
theorem leAscPrice_trans : ∀ a b c, leAscPrice a b = true →
    leAscPrice b c = true → leAscPrice a c = true := by
  intro a b c h1 h2
  exact decide_eq_true (le_trans (of_decide_eq_true h1) (of_decide_eq_true h2))

/-- Totality of the ascending price order. -/
theorem leAscPrice_total : ∀ a b, leAscPrice a b = true ∨ leAscPrice b a = true := by
  intro a b
  rcases le_total a.minPrice b.minPrice with h | h
  · exact Or.inl (decide_eq_true h)
  · exact Or.inr (decide_eq_true h)

/-- Transitivity of the descending price order. -/
theorem leDescPrice_trans : ∀ a b c, leDescPrice a b = true →
    leDescPrice b c = true → leDescPrice a c = true := by
  intro a b c h1 h2
  exact decide_eq_true (le_trans (of_decide_eq_true h2) (of_decide_eq_true h1))

/-- Totality of the descending price order. -/
theorem leDescPrice_total : ∀ a b, leDescPrice a b = true ∨ leDescPrice b a = true := by
  intro a b
  rcases le_total a.minPrice b.minPrice with h | h
  · exact Or.inr (decide_eq_true h)
  · exact Or.inl (decide_eq_true h)

/-- A sublist of an ascending price sort has ascending prices. -/
theorem sublist_sortAsc_prices {l m : List ResultRec}
    (hs : m.Sublist (sortByLe leAscPrice l)) :
    (m.map (·.minPrice)).Pairwise (fun a b : ℚ => a ≤ b) := by
  rw [List.pairwise_map]
  exact (List.Pairwise.sublist hs
    (pairwise_sortByLe leAscPrice_trans leAscPrice_total l)).imp
    (fun hab => of_decide_eq_true hab)

/-- A sublist of a descending price sort has descending prices. -/
theorem sublist_sortDesc_prices {l m : List ResultRec}
    (hs : m.Sublist (sortByLe leDescPrice l)) :
    (m.map (·.minPrice)).Pairwise (fun a b : ℚ => b ≤ a) := by
  rw [List.pairwise_map]
  exact (List.Pairwise.sublist hs
    (pairwise_sortByLe leDescPrice_trans leDescPrice_total l)).imp
    (fun hab => of_decide_eq_true hab)

/-- The 25-cheapest weapon list is ascending. -/
theorem searchCheapestByWeapon_sublist (cat : Catalog) (w : String) (k : ℕ) :
    ∃ l, (searchCheapestByWeapon cat w (some k)).Sublist (sortByLe leAscPrice l) ∧
      (searchCheapestByWeapon cat w (some k)).length ≤ k := by
  unfold searchCheapestByWeapon
  dsimp only
  split
  · exact ⟨[], by simp, by simp⟩
  · exact ⟨_, List.take_sublist k _, List.length_take_le k _⟩

/-- The 25-most-expensive weapon list is descending. -/
theorem searchMostExpensiveByWeapon_sublist (cat : Catalog) (w : String) (k : ℕ) :
    ∃ l, (searchMostExpensiveByWeapon cat w (some k)).Sublist (sortByLe leDescPrice l) ∧
      (searchMostExpensiveByWeapon cat w (some k)).length ≤ k := by
  unfold searchMostExpensiveByWeapon
  dsimp only
  split
  · exact ⟨[], by simp, by simp⟩
  · exact ⟨_, List.take_sublist k _, List.length_take_le k _⟩

/-- Claim C7, counterexample: the sort policy does not hold for every
query path.  `"under 5 dollars"` is an upper-bound-only price query, yet
`search` answers it through the exact-match pre-pass (two catalog names
equal the query up to case), returning prices `[1, 100]` in catalog
order — ascending, not descending. -/
theorem underQueryUnsortedCounterexample :
    detectPriceQuery "under 5 dollars" = (true, some 5, none) ∧
    (search emptyOracle zeroRatio dupCaseCat false "under 5 dollars" 10).map
        (·.minPrice) = [1, 100] ∧
    ¬ ((search emptyOracle zeroRatio dupCaseCat false "under 5 dollars" 10).map
        (·.minPrice)).Pairwise (fun a b : ℚ => b ≤ a) := by
  refine ⟨by decide, by decide, ?_⟩
  intro h
  rw [show (search emptyOracle zeroRatio dupCaseCat false "under 5 dollars" 10).map
      (·.minPrice) = [1, 100] from by decide] at h
  have h2 := List.pairwise_cons.mp h
  have := h2.1 100 (by simp)
  norm_num at this

/-- Claim C7, amended: the sort policy and caps hold on the price paths.
`search_by_price_range` with only an upper bound sorts descending, with a
positive lower bound (alone or with an upper bound) sorts ascending, and
returns at most 15 items; the extremum branches of `search`
(`cheapest`/`most expensive` with a detected weapon, StatTrak-filtered)
return at most 25 items sorted ascending/descending respectively.  The
name-matching pre-pass, when it fires first, can return price-unsorted
results (see the counterexample). -/
theorem priceSortPolicy :
    (∀ (cat : Catalog) (w : Option String) (m : ℚ),
      ((searchByPriceRange cat w (some m) 0).map (·.minPrice)).Pairwise
        (fun a b : ℚ => b ≤ a) ∧
      (searchByPriceRange cat w (some m) 0).length ≤ 15) ∧
    (∀ (cat : Catalog) (w : Option String) (maxP : Option ℚ) (mn : ℚ), 0 < mn →
      ((searchByPriceRange cat w maxP mn).map (·.minPrice)).Pairwise
        (fun a b : ℚ => a ≤ b) ∧
      (searchByPriceRange cat w maxP mn).length ≤ 15) ∧
    (∀ (cat : Catalog) (w : String) (isST : Bool),
      ((cheapestCase cat w isST).map (·.minPrice)).Pairwise
        (fun a b : ℚ => a ≤ b) ∧
      (cheapestCase cat w isST).length ≤ 25) ∧
    (∀ (cat : Catalog) (w : String) (isST : Bool),
      ((mostExpensiveCase cat w isST).map (·.minPrice)).Pairwise
        (fun a b : ℚ => b ≤ a) ∧
      (mostExpensiveCase cat w isST).length ≤ 25) := by
  refine ⟨?_, ?_, ?_, ?_⟩
  · intro cat w m
    unfold searchByPriceRange
    dsimp only
    split
    · simp
    · rw [if_neg (by simp), if_pos (by simp)]
      exact ⟨sublist_sortDesc_prices (List.take_sublist 15 _),
        List.length_take_le 15 _⟩
  · intro cat w maxP mn hmn
    unfold searchByPriceRange
    dsimp only
    split
    · simp
    · rcases maxP with _ | m
      · rw [if_neg (by simp), if_neg (by simp), if_pos (by simp [hmn])]
        exact ⟨sublist_sortAsc_prices (List.take_sublist 15 _),
          List.length_take_le 15 _⟩
      · rw [if_pos (by simp [hmn])]
        exact ⟨sublist_sortAsc_prices (List.take_sublist 15 _),
          List.length_take_le 15 _⟩
  · intro cat w isST
    unfold cheapestCase
    dsimp only
    obtain ⟨l, hsub, hlen⟩ := searchCheapestByWeapon_sublist cat w 25
    split
    · exact ⟨sublist_sortAsc_prices ((List.filter_sublist _).trans hsub),
        le_trans (List.length_filter_le _ _) hlen⟩
    · exact ⟨sublist_sortAsc_prices hsub, hlen⟩
  · intro cat w isST
    unfold mostExpensiveCase
    dsimp only
    obtain ⟨l, hsub, hlen⟩ := searchMostExpensiveByWeapon_sublist cat w 25
    split
    · exact ⟨sublist_sortDesc_prices ((List.filter_sublist _).trans hsub),
        le_trans (List.length_filter_le _ _) hlen⟩
    · exact ⟨sublist_sortDesc_prices hsub, hlen⟩

/-- Claim C7, witness: concrete instances of the sort policy. -/
theorem priceSortPolicyWitness :
    ((searchByPriceRange dupCaseCat none (some 50) 0).map (·.minPrice)).Pairwise
      (fun a b : ℚ => b ≤ a) ∧
    ((searchByPriceRange dupCaseCat none none 1).map (·.minPrice)).Pairwise
      (fun a b : ℚ => a ≤ b) ∧
    (cheapestCase blueSteelCat "ak-47" true).length ≤ 25 :=
  ⟨(priceSortPolicy.1 dupCaseCat none 50).1,
   (priceSortPolicy.2.1 dupCaseCat none none 1 (by norm_num)).1,
   (priceSortPolicy.2.2.1 blueSteelCat "ak-47" true).2⟩

/-! ## Claim C9 -/

/-- A report produced by the alternatives lookup is never empty: it
starts with the explanatory prefix. -/
theorem formatAlternatesNeEmpty (sf : SearchFn) (w sk dw s : String)
    (h : formatAlternates sf w sk dw = some s) : s ≠ "" := by
  unfold formatAlternates at h
  dsimp only at h
  split at h
  · split at h
    · obtain rfl := Option.some.inj h
      repeat apply appendNeEmptyLeft
      exact strNeEmpty (by decide)
    · exact absurd h (by simp)
  · obtain rfl := Option.some.inj h
    repeat apply appendNeEmptyLeft
    exact strNeEmpty (by decide)

/-- Claim C9: for every query and the empty result list,
`format_search_results` returns a non-empty string — either an
alternatives report with an explanatory prefix, or one of the two
"couldn't find" messages.  (The embedding is a total function: no
exception reaches the caller on this path.) -/
theorem formatterNonEmptyOnEmptyResults (sf : SearchFn) (q : String) :
    formatSearchResults sf [] q ≠ "" := by
  unfold formatSearchResults
  dsimp only
  split
  · rename_i s hs
    split at hs
    · exact formatAlternatesNeEmpty sf _ _ _ s hs
    · exact absurd hs (by simp)
  · rw [if_pos rfl]
    split
    all_goals
      repeat apply appendNeEmptyLeft
      exact strNeEmpty (by decide)

end CS2
